import Mathlib

/-!
Shallow embedding of the `PermafrostRiskFHE` Solidity contract
(src/frontend/web/src/App.tsx, embedded contract source, lines 792-950).

Modelling conventions:
- Solidity mappings become total functions with the Solidity default value
  (`0` for `uint256`, the zero struct for struct mappings). The
  `encryptedMeasurements` mapping is modelled with `Option` so that "a record
  was written" is observable; the `euint32` mapping `encryptedZoneRisk` is
  `Option Nat`: `none` is an uninitialized handle (`FHE.isInitialized` false),
  `some v` is a handle whose plaintext is `v` (the external FHE engine is
  modelled denotationally: `FHE.asEuint32 c = c`, `FHE.add` is addition
  modulo 2^32, exactly the euint32 semantics).
- `FHE.checkSignatures` is external verification; each callback takes the
  verification outcome as a boolean argument `proofOk` and reverts when it is
  false, before any state write, exactly as in the source order.
- `FHE.requestDecryption` mints a request id externally; the request
  operations take the minted `reqId` as an argument.
- A reverting Solidity call is `Except.error`: no state is returned, so no
  partial writes survive, matching EVM revert semantics.
- `keccak256(abi.encodePacked(zone))` is modelled by `zoneHash`, a concrete
  deterministic stand-in that is collision-free on the labels in play and
  never zero (as keccak of a short label is in practice).
- `abi.decode(cleartexts, (int32[]))` followed by `results[0]`, `results[1]`
  is a match demanding at least two elements (shorter input reverts); the
  zone callback decodes one value.
- `msg.sender` is passed as `caller` to every public entry point; the
  `onlyResearcher` modifier has the body `_;` and imposes no condition.
-/

namespace PermafrostRiskFHE

/-- Mirrors `struct EncryptedMeasurement` (opaque euint32 handles as `Nat`). -/
structure EncryptedMeasurement where
  id : Nat
  encryptedTemperature : Nat
  encryptedGasLevel : Nat
  timestamp : Nat
deriving DecidableEq, Repr

/-- Mirrors `struct DecryptedMeasurement`. -/
structure DecryptedMeasurement where
  temperature : Int
  gasLevel : Int
  isDecrypted : Bool
deriving DecidableEq, Repr

/-- Revert reasons of the contract (`require` strings and external failures). -/
inductive ContractError where
  | AlreadyDecrypted
  | InvalidRequest
  | InvalidProof
  | ZoneNotFound
  | DecodeError
deriving DecidableEq, Repr

/-- The contract storage. -/
structure ContractState where
  measurementCount : Nat
  encryptedMeasurements : Nat → Option EncryptedMeasurement
  decryptedMeasurements : Nat → DecryptedMeasurement
  encryptedZoneRisk : String → Option Nat
  zoneList : List String
  requestToMeasurementId : Nat → Nat

/-- Storage at deployment: every mapping holds its default value. -/
def initialState : ContractState :=
  { measurementCount := 0
    encryptedMeasurements := fun _ => none
    decryptedMeasurements := fun _ => ⟨0, 0, false⟩
    encryptedZoneRisk := fun _ => none
    zoneList := []
    requestToMeasurementId := fun _ => 0 }

/-- euint32 modulus. -/
def UINT32_MOD : Nat := 4294967296

/-- Denotation of `FHE.add` on euint32 handles. -/
def fheAdd (a b : Nat) : Nat := (a + b) % UINT32_MOD

/-- Deterministic stand-in for `keccak256(abi.encodePacked(zone))`:
injective on the label space in play and never zero. -/
def zoneHash (s : String) : Nat :=
  s.data.foldl (fun a c => a * 256 + c.toNat) 7

/-- Mirrors `assignZone` (lines 945-949). -/
def assignZone (temperature _gasLevel : Int) : String :=
  if temperature < -2 then "LowRisk"
  else if temperature < 2 then "MediumRisk"
  else "HighRisk"

/-- Mirrors the `onlyResearcher` modifier (lines 825-827): its body is `_;`,
so it passes for every caller and measurement id. -/
def onlyResearcher (_caller : Nat) (_measurementId : Nat) : Bool := true

/-- Mirrors `submitEncryptedMeasurement` (lines 829-850). -/
def submitEncryptedMeasurement (s : ContractState)
    (encryptedTemperature encryptedGasLevel timestamp : Nat) : ContractState :=
  let newId := s.measurementCount + 1
  { s with
    measurementCount := newId
    encryptedMeasurements := fun i =>
      if i = newId then some ⟨newId, encryptedTemperature, encryptedGasLevel, timestamp⟩
      else s.encryptedMeasurements i
    decryptedMeasurements := fun i =>
      if i = newId then ⟨0, 0, false⟩ else s.decryptedMeasurements i }

/-- Mirrors `requestMeasurementDecryption` (lines 852-864): the modifier is a
no-op, the only `require` is `!isDecrypted`, and the engine-minted `reqId` is
recorded in `requestToMeasurementId`. There is no existence check on
`measurementId`. -/
def requestMeasurementDecryption (caller : Nat) (s : ContractState)
    (measurementId reqId : Nat) : Except ContractError ContractState :=
  if onlyResearcher caller measurementId = false then
    .error .InvalidRequest
  else if (s.decryptedMeasurements measurementId).isDecrypted then
    .error .AlreadyDecrypted
  else
    .ok { s with requestToMeasurementId := fun r =>
            if r = reqId then measurementId else s.requestToMeasurementId r }

/-- Mirrors lines 885-890 of `decryptMeasurement` (zone bucket update): lazy
creation with `FHE.asEuint32(0)` plus `zoneList.push`, then homomorphic
increment by one. -/
def contribute (s : ContractState) (zone : String) : ContractState :=
  let base : Nat × List String :=
    match s.encryptedZoneRisk zone with
    | none => (0, s.zoneList ++ [zone])
    | some v => (v, s.zoneList)
  { s with
    encryptedZoneRisk := fun z =>
      if z = zone then some (fheAdd base.1 1) else s.encryptedZoneRisk z
    zoneList := base.2 }

/-- Mirrors `decryptMeasurement` (lines 866-893): `require(measurementId != 0)`
on the mapping value, then signature verification, then decode, then the
state writes. The mapping entry is never removed. -/
def decryptMeasurement (s : ContractState) (requestId : Nat)
    (cleartexts : List Int) (proofOk : Bool) : Except ContractError ContractState :=
  let measurementId := s.requestToMeasurementId requestId
  if measurementId = 0 then
    .error .InvalidRequest
  else if proofOk = false then
    .error .InvalidProof
  else
    match cleartexts with
    | temperature :: gasLevel :: _ =>
        let s1 : ContractState :=
          { s with decryptedMeasurements := fun i =>
              if i = measurementId then ⟨temperature, gasLevel, true⟩
              else s.decryptedMeasurements i }
        .ok (contribute s1 (assignZone temperature gasLevel))
    | _ => .error .DecodeError

/-- Mirrors `getDecryptedMeasurement` (lines 895-902). -/
def getDecryptedMeasurement (s : ContractState) (measurementId : Nat) :
    Int × Int × Bool :=
  let m := s.decryptedMeasurements measurementId
  (m.temperature, m.gasLevel, m.isDecrypted)

/-- Mirrors `requestZoneRiskDecryption` (lines 908-917):
`require(FHE.isInitialized(risk))`, then records the zone hash under the
minted request id (in the same untagged `requestToMeasurementId` mapping). -/
def requestZoneRiskDecryption (s : ContractState) (zone : String)
    (reqId : Nat) : Except ContractError ContractState :=
  match s.encryptedZoneRisk zone with
  | none => .error .ZoneNotFound
  | some _ => .ok { s with requestToMeasurementId := fun r =>
                     if r = reqId then zoneHash zone else s.requestToMeasurementId r }

/-- Mirrors `getZoneFromHash` (lines 936-943): first-match linear scan of
`zoneList`, reverting when no hash matches. -/
def getZoneFromHash (zoneList : List String) (hash : Nat) : Option String :=
  zoneList.find? (fun z => zoneHash z == hash)

/-- Mirrors `decryptZoneRisk` (lines 919-930): looks up the recorded hash,
recovers the zone via `getZoneFromHash` (reverting with "Zone not found"),
verifies signatures, decodes one `uint32` — and writes nothing: the decoded
value is a discarded local and the state is returned unchanged. -/
def decryptZoneRisk (s : ContractState) (requestId : Nat)
    (cleartexts : List Int) (proofOk : Bool) : Except ContractError ContractState :=
  let h := s.requestToMeasurementId requestId
  match getZoneFromHash s.zoneList h with
  | none => .error .ZoneNotFound
  | some _zone =>
      if proofOk = false then
        .error .InvalidProof
      else
        match cleartexts with
        | _riskValue :: _ => .ok s
        | [] => .error .DecodeError

/-- The public mutating entry points of the contract. -/
inductive Op where
  | submit (encT encG ts : Nat)
  | requestMeasurement (measurementId reqId : Nat)
  | measurementCallback (requestId : Nat) (cleartexts : List Int) (proofOk : Bool)
  | requestZone (zone : String) (reqId : Nat)
  | zoneCallback (requestId : Nat) (cleartexts : List Int) (proofOk : Bool)

/-- One external transaction from `caller` (the `msg.sender`). -/
def step (caller : Nat) (s : ContractState) (op : Op) :
    Except ContractError ContractState :=
  match op with
  | .submit encT encG ts => .ok (submitEncryptedMeasurement s encT encG ts)
  | .requestMeasurement measurementId reqId =>
      requestMeasurementDecryption caller s measurementId reqId
  | .measurementCallback requestId cleartexts proofOk =>
      decryptMeasurement s requestId cleartexts proofOk
  | .requestZone zone reqId => requestZoneRiskDecryption s zone reqId
  | .zoneCallback requestId cleartexts proofOk =>
      decryptZoneRisk s requestId cleartexts proofOk

/-- True exactly when the call did not revert. -/
def isOk : Except ContractError ContractState → Bool
  | .ok _ => true
  | .error _ => false

/-- State after a call: the new state on success, the unchanged pre-state on
revert (EVM revert semantics). -/
def okState (r : Except ContractError ContractState) (dflt : ContractState) :
    ContractState :=
  match r with
  | .ok s => s
  | .error _ => dflt

/-- Run a sequence of transactions; a reverted transaction leaves the state
unchanged. -/
def run (caller : Nat) (s : ContractState) (ops : List Op) : ContractState :=
  match ops with
  | [] => s
  | op :: rest => run caller (okState (step caller s op) s) rest

/-- State with one "HighRisk" contribution and an issued zone decryption
request correlated under request id 7. -/
def c7_state : ContractState :=
  okState (requestZoneRiskDecryption (contribute initialState "HighRisk")
    "HighRisk" 7) initialState

/-- Replay scenario, step 0: one measurement submitted. -/
def c1_s0 : ContractState := submitEncryptedMeasurement initialState 10 11 100

/-- Replay scenario, step 1: decryption of measurement 1 requested, the
engine minted request id 1. -/
def c1_s1 : ContractState :=
  okState (requestMeasurementDecryption 0 c1_s0 1 1) c1_s0

/-- Replay scenario, step 2: the callback for request id 1 processed once
with verified cleartexts `[-5, 3]`. -/
def c1_s2 : ContractState :=
  okState (decryptMeasurement c1_s1 1 [-5, 3] true) c1_s1

/-- Double-request scenario, step 0: one measurement submitted. -/
def c2_s0 : ContractState := submitEncryptedMeasurement initialState 20 21 200

/-- Double-request scenario, step 1: first decryption request (id 1). -/
def c2_s1 : ContractState :=
  okState (requestMeasurementDecryption 0 c2_s0 1 1) c2_s0

/-- Double-request scenario, step 2: second decryption request (id 2) while
the measurement is still pending, so the guard passes. -/
def c2_s2 : ContractState :=
  okState (requestMeasurementDecryption 0 c2_s1 1 2) c2_s1

/-- Double-request scenario, step 3: the first callback processed with
verified cleartexts `[-5, 3]`; measurement 1 is now decrypted. -/
def c2_s3 : ContractState :=
  okState (decryptMeasurement c2_s2 1 [-5, 3] true) c2_s2

/-- Cross-target scenario, step 0: one measurement submitted. -/
def c3_s0 : ContractState := submitEncryptedMeasurement initialState 30 31 300

/-- Cross-target scenario, step 1: measurement decryption requested (id 1). -/
def c3_s1 : ContractState :=
  okState (requestMeasurementDecryption 0 c3_s0 1 1) c3_s0

/-- Cross-target scenario, step 2: measurement callback processed, creating
the "LowRisk" bucket. -/
def c3_s2 : ContractState :=
  okState (decryptMeasurement c3_s1 1 [-5, 3] true) c3_s1

/-- Cross-target scenario, step 3: zone decryption of "LowRisk" requested
(request id 2), recording `zoneHash "LowRisk"` in the same untagged
request mapping. -/
def c3_s3 : ContractState :=
  okState (requestZoneRiskDecryption c3_s2 "LowRisk" 2) c3_s2

/-- Overwrite scenario, step 0: one measurement submitted. -/
def c4_s0 : ContractState := submitEncryptedMeasurement initialState 40 41 400

/-- Overwrite scenario, step 1: first decryption request (id 1). -/
def c4_s1 : ContractState :=
  okState (requestMeasurementDecryption 0 c4_s0 1 1) c4_s0

/-- Overwrite scenario, step 2: second decryption request (id 2) while the
measurement is still pending. -/
def c4_s2 : ContractState :=
  okState (requestMeasurementDecryption 0 c4_s1 1 2) c4_s1

/-- Overwrite scenario, step 3: the first callback processed with verified
cleartexts `[-5, 3]`; measurement 1 is now decrypted. -/
def c4_s3 : ContractState :=
  okState (decryptMeasurement c4_s2 1 [-5, 3] true) c4_s2

/-- Claim C8: `assignZone` is a pure total function on integer pairs that
ignores the gas level and returns "LowRisk" exactly for temperature < -2,
"MediumRisk" exactly for -2 ≤ temperature < 2, "HighRisk" exactly for
temperature ≥ 2; in particular `assignZone (-2) g = "MediumRisk"` and
`assignZone 2 g = "HighRisk"` for every g. -/
theorem claim_C8 (t g : Int) :
    (assignZone t g = "LowRisk" ↔ t < -2) ∧
    (assignZone t g = "MediumRisk" ↔ (-2 ≤ t ∧ t < 2)) ∧
    (assignZone t g = "HighRisk" ↔ 2 ≤ t) ∧
    (∀ g' : Int, assignZone t g = assignZone t g') ∧
    assignZone (-2) g = "MediumRisk" ∧
    assignZone 2 g = "HighRisk" := by
  refine ⟨?_, ?_, ?_, fun g' => rfl, by norm_num [assignZone], by norm_num [assignZone]⟩ <;>
    · unfold assignZone
      split_ifs with h1 h2 <;>
        simp only [show ("LowRisk" : String) ≠ "MediumRisk" from by decide,
          show ("LowRisk" : String) ≠ "HighRisk" from by decide,
          show ("MediumRisk" : String) ≠ "LowRisk" from by decide,
          show ("MediumRisk" : String) ≠ "HighRisk" from by decide,
          show ("HighRisk" : String) ≠ "LowRisk" from by decide,
          show ("HighRisk" : String) ≠ "MediumRisk" from by decide,
          ne_eq, iff_true, iff_false, true_iff, false_iff, not_lt, not_le,
          not_and, not_false_iff] <;>
        omega

/-- Claim C10: no entry point's result depends on the caller: the
`onlyResearcher` modifier imposes no restriction and `msg.sender` is never
read, so two transactions differing only in caller produce identical
results and states. -/
theorem claim_C10 (caller caller' : Nat) (s : ContractState) (op : Op) :
    step caller s op = step caller' s op := by
  cases op <;> rfl

/-- Claim C6: a callback whose proof does not verify reverts — it never
returns a successor state, so no measurement record, correlator mapping,
zone bucket or reverse-index entry is changed by it. -/
theorem claim_C6 (s : ContractState) (requestId : Nat) (cleartexts : List Int) :
    isOk (decryptMeasurement s requestId cleartexts false) = false ∧
    isOk (decryptZoneRisk s requestId cleartexts false) = false := by
  constructor
  · unfold decryptMeasurement
    by_cases h : s.requestToMeasurementId requestId = 0 <;> simp [h, isOk]
  · unfold decryptZoneRisk
    cases h : getZoneFromHash s.zoneList (s.requestToMeasurementId requestId) <;>
      simp [h, isOk]

theorem contribute_absent (s : ContractState) (label : String)
    (h : s.encryptedZoneRisk label = none) :
    (contribute s label).encryptedZoneRisk label = some 1 ∧
    (contribute s label).zoneList = s.zoneList ++ [label] := by
  unfold contribute
  rw [h]
  constructor
  · simp [fheAdd, UINT32_MOD]
  · rfl

theorem contribute_present (s : ContractState) (label : String) (v : Nat)
    (h : s.encryptedZoneRisk label = some v) :
    (contribute s label).encryptedZoneRisk label = some (fheAdd v 1) ∧
    (contribute s label).zoneList = s.zoneList := by
  unfold contribute
  rw [h]
  exact ⟨by simp, rfl⟩

theorem contribute_other (s : ContractState) (label z : String) (hz : z ≠ label) :
    (contribute s label).encryptedZoneRisk z = s.encryptedZoneRisk z := by
  unfold contribute
  simp [hz]

theorem contribute_iterate_some (label : String) (n : Nat) :
    ∀ (s : ContractState) (v : Nat), v < UINT32_MOD →
      s.encryptedZoneRisk label = some v →
      ((fun st => contribute st label)^[n] s).encryptedZoneRisk label =
        some ((v + n) % UINT32_MOD) := by
  induction n with
  | zero =>
      intro s v hv h
      simpa [Nat.mod_eq_of_lt hv] using h
  | succ m ih =>
      intro s v hv h
      rw [Function.iterate_succ_apply]
      have hstep := (contribute_present s label v h).1
      have h1 : (v + 1) % UINT32_MOD < UINT32_MOD :=
        Nat.mod_lt _ (by unfold UINT32_MOD; omega)
      have := ih (contribute s label) ((v + 1) % UINT32_MOD) h1 hstep
      rw [this, Nat.mod_add_mod]
      have harg : v + 1 + m = v + (m + 1) := by omega
      rw [harg]

/-- Claim C9: on the first contribution to a label the bucket is created
from encrypted zero and `(hash, label)` is effectively appended once to the
reverse index (`zoneList`, scanned by hash via `zoneHash`), in first-seen
order; every contribution increments the bucket by one, the per-label
uniqueness of buckets and index entries is preserved, and N sequential
contributions to a fresh label leave a counter whose plaintext is N. -/
theorem claim_C9 (s : ContractState) (label : String) :
    (s.encryptedZoneRisk label = none →
      (contribute s label).encryptedZoneRisk label = some 1 ∧
      (contribute s label).zoneList = s.zoneList ++ [label]) ∧
    (∀ v, s.encryptedZoneRisk label = some v →
      (contribute s label).encryptedZoneRisk label = some (fheAdd v 1) ∧
      (contribute s label).zoneList = s.zoneList) ∧
    (s.zoneList.Nodup → (∀ z, z ∈ s.zoneList ↔ s.encryptedZoneRisk z ≠ none) →
      ((contribute s label).zoneList.Nodup ∧
        ∀ z, z ∈ (contribute s label).zoneList ↔
          (contribute s label).encryptedZoneRisk z ≠ none)) ∧
    (∀ N, s.encryptedZoneRisk label = none → 0 < N → N < UINT32_MOD →
      ((fun st => contribute st label)^[N] s).encryptedZoneRisk label = some N) := by
  refine ⟨contribute_absent s label, fun v h => contribute_present s label v h,
    ?_, ?_⟩
  · intro hnumq hsync
    cases hcase : s.encryptedZoneRisk label with
    | none =>
        have hmem : label ∉ s.zoneList := by
          intro hin
          exact ((hsync label).1 hin) hcase
        have hlist := (contribute_absent s label hcase).2
        constructor
        · rw [hlist]
          simp [List.nodup_append, hnumq, hmem]
        · intro z
          rw [hlist]
          by_cases hz : z = label
          · subst hz
            simp [(contribute_absent s z hcase).1]
          · simp [hz, contribute_other s label z hz, hsync z]
    | some v =>
        have hlist := (contribute_present s label v hcase).2
        constructor
        · rw [hlist]; exact hnumq
        · intro z
          rw [hlist]
          by_cases hz : z = label
          · subst hz
            have hin : z ∈ s.zoneList := (hsync z).2 (by simp [hcase])
            simp [hin, (contribute_present s z v hcase).1]
          · rw [contribute_other s label z hz]
            exact hsync z
  · intro N habs hpos hlt
    obtain ⟨m, rfl⟩ : ∃ m, N = m + 1 := ⟨N - 1, by omega⟩
    rw [Function.iterate_succ_apply]
    have hfirst := (contribute_absent s label habs).1
    have := contribute_iterate_some label m (contribute s label) 1
      (by unfold UINT32_MOD; omega) hfirst
    rw [this, Nat.mod_eq_of_lt (by omega)]
    congr 1
    omega

/-- Witness for claim C9 at a concrete input: from the fresh initial state,
three contributions to "HighRisk" leave a counter whose plaintext is 3. -/
theorem claim_C9_witness :
    initialState.encryptedZoneRisk "HighRisk" = none ∧ (0 : Nat) < 3 ∧
    3 < UINT32_MOD ∧
    ((fun st => contribute st "HighRisk")^[3] initialState).encryptedZoneRisk
      "HighRisk" = some 3 :=
  ⟨rfl, by decide, by decide,
    (claim_C9 initialState "HighRisk").2.2.2 3 rfl (by decide) (by decide)⟩

/-- Counterexample to claim C5 as stated: `requestMeasurementDecryption` does
not fail with `NotFound` on an id never assigned by a submission — in the
initial state no measurement 9 exists, yet the request succeeds. -/
theorem claim_C5_counterexample :
    initialState.encryptedMeasurements 9 = none ∧
    isOk (requestMeasurementDecryption 0 initialState 9 1) = true :=
  ⟨rfl, rfl⟩

/-- Claim C5 (amended): `requestMeasurementDecryption` fails with
`AlreadyDecrypted` when the measurement's state is already decrypted, and
succeeds — recording the request-to-measurement mapping — for every id whose
record is not decrypted, including ids never assigned by a submission (the
code has no `NotFound` check). -/
theorem claim_C5 (caller : Nat) (s : ContractState) (id reqId : Nat) :
    ((s.decryptedMeasurements id).isDecrypted = true →
      requestMeasurementDecryption caller s id reqId = .error .AlreadyDecrypted) ∧
    ((s.decryptedMeasurements id).isDecrypted = false →
      requestMeasurementDecryption caller s id reqId =
        .ok { s with requestToMeasurementId := fun r =>
                if r = reqId then id else s.requestToMeasurementId r }) := by
  constructor <;> intro h <;>
    simp [requestMeasurementDecryption, onlyResearcher, h]

/-- Witness for claim C5 at a concrete input: measurement 5 is not decrypted
in the initial state, so the request succeeds and records the mapping. -/
theorem claim_C5_witness :
    (initialState.decryptedMeasurements 5).isDecrypted = false ∧
    requestMeasurementDecryption 0 initialState 5 2 =
      .ok { initialState with requestToMeasurementId := fun r =>
              if r = 2 then 5 else initialState.requestToMeasurementId r } :=
  ⟨rfl, (claim_C5 0 initialState 5 2).2 rfl⟩

/-- Counterexample to claim C7 as stated: resolving the aggregate callback
does not expose the decrypted count for read access — the post-state is
identical to the pre-state whatever count the callback carries (5 or 9), so
the decrypted value leaves no trace in the contract state. -/
theorem claim_C7_counterexample :
    decryptZoneRisk c7_state 7 [5] true = .ok c7_state ∧
    decryptZoneRisk c7_state 7 [9] true = .ok c7_state ∧
    c7_state.encryptedZoneRisk "HighRisk" = some 1 :=
  ⟨rfl, rfl, rfl⟩

/-- Claim C7 (amended): the aggregate callback recovers the zone by linear
search of the reverse index for an entry whose hash matches the recorded
value, failing with `ZoneNotFound` when no entry matches; on success the
whole contract state — in particular every encrypted bucket — is returned
unchanged, and the decrypted count is discarded rather than exposed. -/
theorem claim_C7 (s : ContractState) (requestId : Nat) (cleartexts : List Int)
    (proofOk : Bool) :
    (getZoneFromHash s.zoneList (s.requestToMeasurementId requestId) = none →
      decryptZoneRisk s requestId cleartexts proofOk = .error .ZoneNotFound) ∧
    (∀ zone, getZoneFromHash s.zoneList (s.requestToMeasurementId requestId) =
        some zone →
      zone ∈ s.zoneList ∧ zoneHash zone = s.requestToMeasurementId requestId) ∧
    (∀ s', decryptZoneRisk s requestId cleartexts proofOk = .ok s' → s' = s) := by
  refine ⟨?_, ?_, ?_⟩
  · intro h
    simp [decryptZoneRisk, h]
  · intro zone h
    refine ⟨List.mem_of_find?_eq_some h, ?_⟩
    have := List.find?_some h
    simpa using this
  · intro s' h
    cases hc : getZoneFromHash s.zoneList (s.requestToMeasurementId requestId) with
    | none => simp [decryptZoneRisk, hc] at h
    | some zone =>
        cases proofOk with
        | false => simp [decryptZoneRisk, hc] at h
        | true =>
            cases cleartexts with
            | nil => simp [decryptZoneRisk, hc] at h
            | cons a t =>
                simp [decryptZoneRisk, hc] at h
                exact h.symm

/-- Claim C1 demonstration: resolution is not one-shot. After the callback
for request id 1 has been processed once (state `c1_s2`), the
`requestToMeasurementId` entry is still present, and a replayed callback
with the same request id, cleartexts and proof is processed again instead
of failing — double-incrementing the "LowRisk" zone counter. -/
theorem claim_C1_bug :
    isOk (requestMeasurementDecryption 0 c1_s0 1 1) = true ∧
    isOk (decryptMeasurement c1_s1 1 [-5, 3] true) = true ∧
    c1_s2.requestToMeasurementId 1 = 1 ∧
    isOk (decryptMeasurement c1_s2 1 [-5, 3] true) = true ∧
    (okState (decryptMeasurement c1_s2 1 [-5, 3] true) c1_s2).encryptedZoneRisk
      "LowRisk" = some 2 := by
  decide

/-- Claim C2 demonstration: the decryption-apply callback has no
`AlreadyDecrypted` guard. With measurement 1 already decrypted to
`(-5, 3)` (state `c2_s3`), the callback for the second outstanding request
succeeds instead of failing, and the first call's values do not persist:
they are overwritten to `(10, 0)`. -/
theorem claim_C2_bug :
    getDecryptedMeasurement c2_s3 1 = (-5, 3, true) ∧
    isOk (decryptMeasurement c2_s3 2 [10, 0] true) = true ∧
    getDecryptedMeasurement
      (okState (decryptMeasurement c2_s3 2 [10, 0] true) c2_s3) 1 =
      (10, 0, true) := by
  decide

/-- Claim C3 demonstration: the request mapping carries no target tag. A
request id recorded for the zone aggregate "LowRisk" (request id 2 in
`c3_s3`, holding `zoneHash "LowRisk"`) is accepted by the measurement
callback instead of being rejected: the zone hash is treated as a
measurement id, a decrypted record is created at that index, and the
"MediumRisk" bucket is incremented. -/
theorem claim_C3_bug :
    c3_s3.requestToMeasurementId 2 = zoneHash "LowRisk" ∧
    isOk (decryptMeasurement c3_s3 2 [1, 2] true) = true ∧
    (okState (decryptMeasurement c3_s3 2 [1, 2] true) c3_s3).decryptedMeasurements
      (zoneHash "LowRisk") = ⟨1, 2, true⟩ ∧
    (okState (decryptMeasurement c3_s3 2 [1, 2] true) c3_s3).encryptedZoneRisk
      "MediumRisk" = some 1 := by
  decide

/-- Witness for claim C7 at a concrete input: in the initial state no
reverse-index entry matches the recorded value for request id 3, so the
aggregate callback fails with `ZoneNotFound`. -/
theorem claim_C7_witness :
    getZoneFromHash initialState.zoneList
      (initialState.requestToMeasurementId 3) = none ∧
    decryptZoneRisk initialState 3 [5] true = .error .ZoneNotFound :=
  ⟨rfl, (claim_C7 initialState 3 [5] true).1 rfl⟩

/-- Counterexample to claim C4 as stated: once a measurement is `Decrypted`,
a later callback (for a second request issued while it was still pending)
does change the stored decrypted values — the temperature recorded as `-5`
is overwritten to `8`. -/
theorem claim_C4_counterexample :
    (c4_s3.decryptedMeasurements 1).isDecrypted = true ∧
    (c4_s3.decryptedMeasurements 1).temperature = -5 ∧
    isOk (step 0 c4_s3 (.measurementCallback 2 [8, 1] true)) = true ∧
    ((okState (step 0 c4_s3 (.measurementCallback 2 [8, 1] true))
      c4_s3).decryptedMeasurements 1).temperature = 8 := by
  decide

theorem contribute_decrypted (s : ContractState) (zone : String) :
    (contribute s zone).decryptedMeasurements = s.decryptedMeasurements := rfl

theorem decryptZoneRisk_okState (s : ContractState) (rid : Nat)
    (cle : List Int) (pok : Bool) :
    okState (decryptZoneRisk s rid cle pok) s = s := by
  cases hc : getZoneFromHash s.zoneList (s.requestToMeasurementId rid) with
  | none => simp [decryptZoneRisk, hc, okState]
  | some z =>
      cases pok with
      | false => simp [decryptZoneRisk, hc, okState]
      | true =>
          cases cle with
          | nil => simp [decryptZoneRisk, hc, okState]
          | cons a t => simp [decryptZoneRisk, hc, okState]

theorem step_preserves (caller : Nat) (s : ContractState) (op : Op) (id : Nat)
    (hid : id ≤ s.measurementCount) :
    (okState (step caller s op) s).encryptedMeasurements id =
      s.encryptedMeasurements id ∧
    ((s.decryptedMeasurements id).isDecrypted = true →
      ((okState (step caller s op) s).decryptedMeasurements id).isDecrypted =
        true) ∧
    s.measurementCount ≤ (okState (step caller s op) s).measurementCount := by
  cases op with
  | submit encT encG ts =>
      have hne : id ≠ s.measurementCount + 1 := by omega
      refine ⟨?_, fun hdec => ?_, ?_⟩
      · simp [step, okState, submitEncryptedMeasurement, hne]
      · simpa [step, okState, submitEncryptedMeasurement, hne] using hdec
      · simp [step, okState, submitEncryptedMeasurement]
  | requestMeasurement mid reqId =>
      simp only [step]
      unfold requestMeasurementDecryption
      split_ifs <;> exact ⟨rfl, fun h => h, Nat.le_refl _⟩
  | measurementCallback rid cle pok =>
      simp only [step, decryptMeasurement]
      split_ifs with h1 h2
      · exact ⟨rfl, fun h => h, Nat.le_refl _⟩
      · exact ⟨rfl, fun h => h, Nat.le_refl _⟩
      · cases cle with
        | nil => exact ⟨rfl, fun h => h, Nat.le_refl _⟩
        | cons a t =>
            cases t with
            | nil => exact ⟨rfl, fun h => h, Nat.le_refl _⟩
            | cons b t2 =>
                refine ⟨rfl, fun hdec => ?_, Nat.le_refl _⟩
                by_cases hid2 : id = s.requestToMeasurementId rid <;>
                  simp [okState, contribute_decrypted, hid2, hdec]
  | requestZone zone reqId =>
      simp only [step]
      unfold requestZoneRiskDecryption
      cases hz : s.encryptedZoneRisk zone <;>
        exact ⟨rfl, fun h => h, Nat.le_refl _⟩
  | zoneCallback rid cle pok =>
      simp only [step]
      rw [decryptZoneRisk_okState s rid cle pok]
      exact ⟨rfl, fun h => h, Nat.le_refl _⟩

/-- Claim C4 (amended): for every measurement record (an id already assigned,
`id ≤ measurementCount`) and every sequence of transactions: the encrypted
temperature and gas-level handles never change and the record is never
deleted (the stored `EncryptedMeasurement` is preserved verbatim), the id
counter only grows, and the decryption flag is monotone — once `Decrypted`
the record never returns to `Pending`. (The original claim's further part,
that the stored decrypted values can never change after the first
transition, is false: see the counterexample.) -/
theorem claim_C4 (caller : Nat) (s : ContractState) (ops : List Op) (id : Nat)
    (hid : id ≤ s.measurementCount) :
    (run caller s ops).encryptedMeasurements id = s.encryptedMeasurements id ∧
    ((s.decryptedMeasurements id).isDecrypted = true →
      ((run caller s ops).decryptedMeasurements id).isDecrypted = true) ∧
    s.measurementCount ≤ (run caller s ops).measurementCount := by
  induction ops generalizing s with
  | nil => exact ⟨rfl, fun h => h, Nat.le_refl _⟩
  | cons op rest ih =>
      have hstep := step_preserves caller s op id hid
      have hid' : id ≤ (okState (step caller s op) s).measurementCount :=
        le_trans hid hstep.2.2
      have hrest := ih (okState (step caller s op) s) hid'
      refine ⟨?_, fun hdec => ?_, ?_⟩
      · show (run caller (okState (step caller s op) s) rest).encryptedMeasurements
            id = s.encryptedMeasurements id
        rw [hrest.1, hstep.1]
      · exact hrest.2.1 (hstep.2.1 hdec)
      · exact le_trans hstep.2.2 hrest.2.2

/-- Witness for claim C4 at a concrete input: measurement 1 exists in
`c4_s0`, and after a further submission its encrypted record is unchanged. -/
theorem claim_C4_witness :
    1 ≤ c4_s0.measurementCount ∧
    (run 0 c4_s0 [Op.submit 1 2 3]).encryptedMeasurements 1 =
      c4_s0.encryptedMeasurements 1 :=
  ⟨by decide, (claim_C4 0 c4_s0 [Op.submit 1 2 3] 1 (by decide)).1⟩

end PermafrostRiskFHE
